import Mathlib

/-
Shallow embedding of the leetcode-docker judge engine (src/app/run_code.go
and the default-application logic of src/main.go) together with proofs of
the behavioural properties stated about it.

Modelling conventions:
* Go `int` fields are embedded as `Int`; `MemoryKb float64` is embedded as
  `Int` (the source only ever stores `float64(memoryMb * 1024)`, an exact
  integer).
* The side effects of one sandbox run (temp dir creation, file writes, and
  the `docker run` invocation) are abstracted into an `ExecOutcome` value
  supplied by the environment; `executeSingleTestCase` is the pure function
  of that outcome that the Go function computes.  The `writeInputFail`
  outcome is only reachable in the source when `input ≠ ""` (the write is
  guarded); including it unconditionally only enlarges the set of
  environments quantified over.
* The concurrent fan-out/fan-in of `ExecuteCode` (one goroutine per test
  case, all sending to one buffered channel that is drained after the join
  barrier) is embedded by an explicit `arrival : List Nat` parameter: the
  order in which goroutine results come off the channel.  A real execution
  corresponds to any `arrival` that is a permutation of
  `List.range n`.
-/

namespace LeetcodeDocker

/-- Characters treated as white space by Go `strings.TrimSpace`
(the Latin-1 portion of `unicode.IsSpace`, which covers every character
used in this development). -/
def isSpaceGo (c : Char) : Bool :=
  c == ' ' || c == '\t' || c == '\n' || c.val == 0x0b || c.val == 0x0c ||
  c == '\r' || c.val == 0x85 || c.val == 0xa0

/-- List-level model of `strings.TrimSpace`: drop white space from the
front, then from the back. -/
def trimSpaceList (l : List Char) : List Char :=
  (((l.dropWhile isSpaceGo).reverse).dropWhile isSpaceGo).reverse

/-- Model of Go `strings.TrimSpace`. -/
def trimSpace (s : String) : String :=
  ⟨trimSpaceList s.data⟩

/-- Boolean test that `sub` occurs at the start of `l`. -/
def startsWithList : List Char → List Char → Bool
  | [], _ => true
  | _ :: _, [] => false
  | a :: as, b :: bs => a == b && startsWithList as bs

/-- Boolean test that `sub` occurs contiguously somewhere inside `l`. -/
def hasSubList (sub : List Char) : List Char → Bool
  | [] => startsWithList sub []
  | l@(_ :: t) => startsWithList sub l || hasSubList sub t

/-- Model of Go `strings.Contains s sub`. -/
def containsSub (s sub : String) : Bool :=
  hasSubList sub.data s.data

/-- TestCase (src/app/run_code.go lines 21-25). -/
structure TestCase where
  ID : Int
  InputText : String
  OutputText : String
  deriving Repr, DecidableEq

instance : Inhabited TestCase := ⟨⟨0, "", ""⟩⟩

/-- IndividualTestResult (src/app/run_code.go lines 28-38). -/
structure IndividualTestResult where
  ID : Int
  InputText : String
  OutputText : String
  Actual : String
  IsCorrect : Bool
  TimeMs : Int
  MemoryKb : Int
  Error : String
  Status : String
  deriving Repr, DecidableEq

/-- ExecutionRequest (src/app/run_code.go lines 42-51). -/
structure ExecutionRequest where
  ProblemID : Int
  CustomInput : String
  TestCases : List TestCase
  Code : String
  Language : String
  TimeoutMs : Int
  MemoryMb : Int
  CpuShares : Int
  deriving Repr, DecidableEq

/-- ExecutionResult (src/app/run_code.go lines 54-61). -/
structure ExecutionResult where
  ProblemID : Int
  OverallStatus : String
  TestResults : List IndividualTestResult
  TotalTests : Int
  PassedTests : Int
  Error : String
  deriving Repr, DecidableEq

/-- Shape of `cmd.Run()`'s error in the source: `nil`, an `*exec.ExitError`
(the program started and exited abnormally), or any other error. -/
inductive CmdErr where
  | noErr
  | exitError
  | otherErr (msg : String)
  deriving Repr, DecidableEq

/-- Outcome of the effectful part of one `executeSingleTestCase` call:
either one of the three internal-error early returns (temp dir creation,
code-file write, input-file write, lines 121-150), or a completed
`docker run` invocation with its observables (whether the context deadline
fired, the shape of `cmd.Run()`'s error, captured stdout/stderr, elapsed
wall-clock milliseconds). -/
inductive ExecOutcome where
  | tempDirFail (errMsg : String)
  | writeCodeFail (errMsg : String)
  | writeInputFail (errMsg : String)
  | ran (timedOut : Bool) (cmdErr : CmdErr) (stdout stderr : String) (elapsedMs : Int)
  deriving Repr, DecidableEq

/-- getCodeFileName (src/app/run_code.go lines 332-347). -/
def getCodeFileName (lang : String) : String :=
  if lang = "python" then "main.py"
  else if lang = "java" then "Main.java"
  else if lang = "cpp" then "main.cpp"
  else if lang = "go" then "main.go"
  else if lang = "javascript" then "index.js"
  else "main.txt"

/-- getDockerImage (src/app/run_code.go lines 349-364). -/
def getDockerImage (lang : String) : String :=
  if lang = "python" then "python:3.12.10-alpine"
  else if lang = "java" then "openjdk:17-jdk-slim"
  else if lang = "cpp" then "gcc:latest"
  else if lang = "go" then "golang:1.22-alpine"
  else if lang = "javascript" then "node:22.16.0-alpine"
  else "alpine/git"

/-- getRunCommand (src/app/run_code.go lines 368-389).  `fmt.Sprintf`
with `%s` holes is embedded as string concatenation. -/
def getRunCommand (lang codeFileName containerInputFilePath : String) : List String :=
  let inputRedirect : String :=
    if containerInputFilePath ≠ "" then "< " ++ containerInputFilePath else ""
  if lang = "python" then
    ["sh", "-c", "python /app/" ++ codeFileName ++ " " ++ inputRedirect]
  else if lang = "java" then
    ["sh", "-c", "javac /app/" ++ codeFileName ++ " && java -classpath /app Main " ++ inputRedirect]
  else if lang = "cpp" then
    ["sh", "-c", "g++ -o /app/a.out /app/" ++ codeFileName ++ " && /app/a.out " ++ inputRedirect]
  else if lang = "go" then
    ["sh", "-c", "go run /app/" ++ codeFileName ++ " " ++ inputRedirect]
  else if lang = "javascript" then
    ["sh", "-c", "node /app/" ++ codeFileName ++ " " ++ inputRedirect]
  else
    ["echo", "Qo\x27llab-quvvatlanmaydigan til."]

/-- executeSingleTestCase (src/app/run_code.go lines 112-233) as a pure
function of the environment's `ExecOutcome`.  The field values mirror the
source line by line: `MemoryKb` is set to the limit at construction (line
118) and never touched again; `Actual` is the trimmed stdout (line 190);
the status ladder is lines 193-231 (note the OOMKilled check at line 208
runs after and overrides the compilation/runtime classification). -/
def executeSingleTestCase (code language input : String)
    (timeoutMs memoryMb cpuShares : Int) (testID : Int)
    (expectedOutput : String) (outcome : ExecOutcome) : IndividualTestResult :=
  let base : IndividualTestResult :=
    { ID := testID, InputText := input, OutputText := expectedOutput,
      Actual := "", IsCorrect := false, TimeMs := 0,
      MemoryKb := memoryMb * 1024, Error := "", Status := "" }
  match outcome with
  | .tempDirFail e =>
      { base with Status := "Internal Error",
                  Error := "Serverda vaqtinchalik katalog yaratishda xato: " ++ e }
  | .writeCodeFail e =>
      { base with Status := "Internal Error",
                  Error := "Kod faylini yozishda xato: " ++ e }
  | .writeInputFail e =>
      { base with Status := "Internal Error",
                  Error := "Input faylini yozishda xato: " ++ e }
  | .ran timedOut cmdErr stdout stderr elapsedMs =>
      let r0 := { base with TimeMs := elapsedMs,
                            Actual := trimSpace stdout,
                            Error := stderr }
      if timedOut then
        { r0 with Status := "Time Limit Exceeded" }
      else
        match cmdErr with
        | .exitError =>
            let s1 : String :=
              if language = "java" ∨ language = "cpp" ∨ language = "go" then
                if containsSub stderr "error:" ∨ containsSub stderr "compilation failed" ∨
                   containsSub stderr "undefined reference" then
                  "Compilation Error"
                else
                  "Runtime Error"
              else
                "Runtime Error"
            let s2 : String :=
              if containsSub stderr "OOMKilled" ∨ containsSub stdout "OOMKilled" then
                "Memory Limit Exceeded"
              else s1
            { r0 with Status := s2 }
        | .otherErr m =>
            { r0 with Status := "Internal Error",
                      Error := "Docker buyrug\x27ini bajarishda kutilmagan xato: " ++ m }
        | .noErr =>
            if expectedOutput ≠ "" then
              if trimSpace stdout = trimSpace expectedOutput then
                { r0 with Status := "Accepted", IsCorrect := true }
              else
                { r0 with Status := "Wrong Answer" }
            else
              { r0 with Status := "Executed", IsCorrect := true }

/-- The body of the per-test-case goroutine of ExecuteCode
(src/app/run_code.go lines 289-298): derive the stable test id (position + 1
when the case carries id 0) and run the single test case, with the
environment's outcome for this goroutine looked up by loop index. -/
def runOne (env : Nat → ExecOutcome) (req : ExecutionRequest)
    (tc : TestCase) (index : Nat) : IndividualTestResult :=
  let currentTestID : Int := if tc.ID = 0 then (index : Int) + 1 else tc.ID
  executeSingleTestCase req.Code req.Language tc.InputText
    req.TimeoutMs req.MemoryMb req.CpuShares currentTestID tc.OutputText (env index)

/-- The per-goroutine result by loop index.  `getD` with the default test
case is only evaluated at indices below `tcs.length`, where it equals the
`(i, tc)` pair of the Go `range` loop. -/
def dispatchResult (env : Nat → ExecOutcome) (req : ExecutionRequest)
    (tcs : List TestCase) (i : Nat) : IndividualTestResult :=
  runOne env req (tcs.getD i default) i

/-- The sequence of results in the order the channel delivers them: the
goroutine completion order `arrival`. -/
def collectedResults (env : Nat → ExecOutcome) (arrival : List Nat)
    (req : ExecutionRequest) (tcs : List TestCase) : List IndividualTestResult :=
  arrival.map (dispatchResult env req tcs)

/-- The per-test results listed in test-case input order (the order of the
`for i, tc := range testCasesToExecute` loop). -/
def inOrderResults (env : Nat → ExecOutcome) (req : ExecutionRequest)
    (tcs : List TestCase) : List IndividualTestResult :=
  (List.range tcs.length).map (dispatchResult env req tcs)

/-- Lines 274-328 of ExecuteCode: given the resolved test-case list, set
TotalTests, handle the empty list, fan out, drain the channel (in `arrival`
order), count passed tests, and fold the overall status (Accepted when all
correct, otherwise the status of the first incorrect result in collection
order). -/
def runTests (env : Nat → ExecOutcome) (arrival : List Nat)
    (req : ExecutionRequest) (tcs : List TestCase) : ExecutionResult :=
  let base : ExecutionResult :=
    { ProblemID := req.ProblemID, OverallStatus := "Processing",
      TestResults := [], TotalTests := (tcs.length : Int), PassedTests := 0,
      Error := "" }
  if tcs.length = 0 then
    { base with OverallStatus := "No Test Cases Found",
                Error := "Bajarish uchun test case\x27lar topilmadi." }
  else
    let results := collectedResults env arrival req tcs
    let passed : Int := ((results.filter (fun r => r.IsCorrect)).length : Int)
    let allTestsPassed : Bool := results.all (fun r => r.IsCorrect)
    let overall : String :=
      if allTestsPassed then "Accepted"
      else
        match results.find? (fun r => !r.IsCorrect) with
        | some r => r.Status
        | none => "Processing"
    { base with OverallStatus := overall, TestResults := results,
                PassedTests := passed }

/-- ExecuteCode (src/app/run_code.go lines 236-329).  The database lookup
`NeonDB` is an external collaborator and is passed in as `neonDB`; the
sandbox observables are `env`; the channel delivery order is `arrival`. -/
def ExecuteCode (neonDB : Int → Except String (List TestCase))
    (env : Nat → ExecOutcome) (arrival : List Nat)
    (req : ExecutionRequest) : ExecutionResult :=
  let base : ExecutionResult :=
    { ProblemID := req.ProblemID, OverallStatus := "Processing",
      TestResults := [], TotalTests := 0, PassedTests := 0, Error := "" }
  if req.ProblemID ≠ 0 then
    match neonDB req.ProblemID with
    | .error e =>
        { base with OverallStatus := "Problem Not Found or DB Error",
                    Error := "Testcase\x27larni ma\x27lumotlar bazasidan olishda xato: " ++ e }
    | .ok tcs => runTests env arrival req tcs
  else if req.CustomInput ≠ "" then
    runTests env arrival req [{ ID := 0, InputText := req.CustomInput, OutputText := "" }]
  else if req.TestCases.length > 0 then
    runTests env arrival req req.TestCases
  else
    { base with OverallStatus := "Error",
                Error := "Test qilish uchun hech qanday Problem ID, Custom Input yoki Test Case\x27lar berilmagan." }

/-- The test-case resolution chain of ExecuteCode (lines 247-272) on its
own: the source the dispatcher will execute, or an error when the request
supplies none of the three sources. -/
def resolveTestCases (neonDB : Int → Except String (List TestCase))
    (req : ExecutionRequest) : Except String (List TestCase) :=
  if req.ProblemID ≠ 0 then neonDB req.ProblemID
  else if req.CustomInput ≠ "" then
    .ok [{ ID := 0, InputText := req.CustomInput, OutputText := "" }]
  else if req.TestCases.length > 0 then
    .ok req.TestCases
  else
    .error "no test-case source supplied"

/-- The default application performed by the transport handler
(src/main.go lines 80-89, repeated at 132-141 and 175-184) before it
invokes the execution engine: a zero-valued limit field is replaced by the
default. -/
def applyHandlerDefaults (req : ExecutionRequest) : ExecutionRequest :=
  { req with
      TimeoutMs := if req.TimeoutMs = 0 then 5000 else req.TimeoutMs,
      MemoryMb := if req.MemoryMb = 0 then 128 else req.MemoryMb,
      CpuShares := if req.CpuShares = 0 then 512 else req.CpuShares }

/-- A string consisting only of white-space characters. -/
abbrev AllWs (s : String) : Prop := ∀ c ∈ s.data, isSpaceGo c = true

theorem dropWhile_append_all {p : Char → Bool} {w l : List Char}
    (hw : ∀ x ∈ w, p x) : (w ++ l).dropWhile p = l.dropWhile p := by
  rw [List.dropWhile_append]
  simp [List.dropWhile_eq_nil_iff.mpr hw]

theorem trimSpaceList_ws_append {w l : List Char}
    (hw : ∀ c ∈ w, isSpaceGo c) : trimSpaceList (w ++ l) = trimSpaceList l := by
  unfold trimSpaceList
  rw [dropWhile_append_all hw]

theorem trimSpaceList_append_ws {l w : List Char}
    (hw : ∀ c ∈ w, isSpaceGo c) : trimSpaceList (l ++ w) = trimSpaceList l := by
  unfold trimSpaceList
  rw [List.dropWhile_append]
  by_cases he : (l.dropWhile isSpaceGo).isEmpty
  · rw [if_pos he]
    rw [List.dropWhile_eq_nil_iff.mpr hw]
    rw [List.isEmpty_iff] at he
    rw [he]
  · rw [if_neg he]
    rw [List.reverse_append]
    rw [dropWhile_append_all (by intro x hx; exact hw x (List.mem_reverse.mp hx))]

theorem trimSpace_pad (w1 s w2 : String) (h1 : AllWs w1) (h2 : AllWs w2) :
    trimSpace (w1 ++ s ++ w2) = trimSpace s := by
  unfold trimSpace
  have hd : (w1 ++ s ++ w2).data = w1.data ++ (s.data ++ w2.data) := by
    rw [String.data_append, String.data_append, List.append_assoc]
  rw [hd]
  rw [trimSpaceList_ws_append h1, trimSpaceList_append_ws h2]

theorem ne_empty_of_mid_ne_empty {w1 s w2 : String} (h : s ≠ "") :
    w1 ++ s ++ w2 ≠ "" := by
  intro hc
  apply h
  have hd : (w1 ++ s ++ w2).data = ("" : String).data := by rw [hc]
  rw [String.data_append, String.data_append] at hd
  have : s.data = [] := by
    rcases List.append_eq_nil.mp hd with ⟨hl, hr⟩
    exact (List.append_eq_nil.mp hl).2
  cases s with
  | mk d => cases hd2 : d with
    | nil => rfl
    | cons a t => rw [hd2] at this; cases this

theorem executeCode_eq_runTests
    (neonDB : Int → Except String (List TestCase)) (env : Nat → ExecOutcome)
    (arrival : List Nat) (req : ExecutionRequest) (tcs : List TestCase)
    (h : resolveTestCases neonDB req = .ok tcs) :
    ExecuteCode neonDB env arrival req = runTests env arrival req tcs := by
  unfold ExecuteCode
  unfold resolveTestCases at h
  by_cases h1 : req.ProblemID ≠ 0
  · rw [if_pos h1] at h ⊢
    cases hdb : neonDB req.ProblemID with
    | error e => rw [hdb] at h; cases h
    | ok tcs2 => rw [hdb] at h; cases h; rfl
  · rw [if_neg h1] at h ⊢
    by_cases h2 : req.CustomInput ≠ ""
    · rw [if_pos h2] at h ⊢; cases h; rfl
    · rw [if_neg h2] at h ⊢
      by_cases h3 : req.TestCases.length > 0
      · rw [if_pos h3] at h ⊢; cases h; rfl
      · rw [if_neg h3] at h; cases h

theorem runTests_nonempty (env : Nat → ExecOutcome) (arrival : List Nat)
    (req : ExecutionRequest) (tcs : List TestCase) (h : tcs ≠ []) :
    runTests env arrival req tcs =
      { ProblemID := req.ProblemID,
        OverallStatus :=
          if (collectedResults env arrival req tcs).all (fun r => r.IsCorrect) then "Accepted"
          else
            match (collectedResults env arrival req tcs).find? (fun r => !r.IsCorrect) with
            | some r => r.Status
            | none => "Processing",
        TestResults := collectedResults env arrival req tcs,
        TotalTests := (tcs.length : Int),
        PassedTests := (((collectedResults env arrival req tcs).filter
          (fun r => r.IsCorrect)).length : Int),
        Error := "" } := by
  unfold runTests
  rw [if_neg (by simpa using h)]

theorem status_accepted_isCorrect (code language input : String)
    (t m c id : Int) (exp : String) (outcome : ExecOutcome)
    (h : (executeSingleTestCase code language input t m c id exp outcome).Status = "Accepted") :
    (executeSingleTestCase code language input t m c id exp outcome).IsCorrect = true := by
  cases outcome with
  | tempDirFail e => simp [executeSingleTestCase] at h
  | writeCodeFail e => simp [executeSingleTestCase] at h
  | writeInputFail e => simp [executeSingleTestCase] at h
  | ran timedOut cmdErr stdout stderr elapsedMs =>
    simp only [executeSingleTestCase] at h ⊢
    by_cases ht : timedOut
    · simp [ht] at h
    · simp only [ht, if_false, Bool.false_eq_true] at h ⊢
      cases cmdErr with
      | exitError =>
        simp only at h
        split at h
        · simp at h
        · split at h
          · split at h <;> simp_all
          · simp at h
      | otherErr m2 => simp at h
      | noErr =>
        simp only at h ⊢
        split at h
        · split at h
          · simp_all
          · simp at h
        · simp at h

theorem memoryKb_eq (code language input : String) (t m c id : Int)
    (exp : String) (outcome : ExecOutcome) :
    (executeSingleTestCase code language input t m c id exp outcome).MemoryKb = m * 1024 := by
  cases outcome with
  | tempDirFail e => rfl
  | writeCodeFail e => rfl
  | writeInputFail e => rfl
  | ran timedOut cmdErr stdout stderr el =>
    by_cases ht : timedOut
    · simp [executeSingleTestCase, ht]
    · cases cmdErr with
      | exitError => simp [executeSingleTestCase, ht]
      | otherErr msg => simp [executeSingleTestCase, ht]
      | noErr =>
        by_cases he : exp = ""
        · simp [executeSingleTestCase, ht, he]
        · by_cases heq : trimSpace stdout = trimSpace exp <;>
            simp [executeSingleTestCase, ht, he, heq]

/-- Every status string `executeSingleTestCase` can emit. -/
def verdictList : List String :=
  ["Accepted", "Wrong Answer", "Executed", "Time Limit Exceeded",
   "Memory Limit Exceeded", "Runtime Error", "Compilation Error", "Internal Error"]

theorem status_mem_verdictList (code language input : String) (t m c id : Int)
    (exp : String) (outcome : ExecOutcome) :
    (executeSingleTestCase code language input t m c id exp outcome).Status ∈ verdictList := by
  cases outcome with
  | tempDirFail e => simp [executeSingleTestCase, verdictList]
  | writeCodeFail e => simp [executeSingleTestCase, verdictList]
  | writeInputFail e => simp [executeSingleTestCase, verdictList]
  | ran timedOut cmdErr stdout stderr el =>
    by_cases ht : timedOut
    · simp [executeSingleTestCase, ht, verdictList]
    · cases cmdErr with
      | exitError =>
        simp only [executeSingleTestCase, ht, if_false, Bool.false_eq_true]
        by_cases hoom : containsSub stderr "OOMKilled" = true ∨ containsSub stdout "OOMKilled" = true
        · simp [hoom, verdictList]
        · by_cases hlang : language = "java" ∨ language = "cpp" ∨ language = "go"
          · by_cases hmark : containsSub stderr "error:" = true ∨
                containsSub stderr "compilation failed" = true ∨
                containsSub stderr "undefined reference" = true <;>
              simp [hoom, hlang, hmark, verdictList]
          · simp [hoom, hlang, verdictList]
      | otherErr msg => simp [executeSingleTestCase, ht, verdictList]
      | noErr =>
        by_cases he : exp = ""
        · simp [executeSingleTestCase, ht, he, verdictList]
        · by_cases heq : trimSpace stdout = trimSpace exp <;>
            simp [executeSingleTestCase, ht, he, heq, verdictList]

theorem dispatch_status_accepted_isCorrect (env : Nat → ExecOutcome)
    (req : ExecutionRequest) (tcs : List TestCase) (i : Nat)
    (h : (dispatchResult env req tcs i).Status = "Accepted") :
    (dispatchResult env req tcs i).IsCorrect = true := by
  unfold dispatchResult runOne at h ⊢
  exact status_accepted_isCorrect _ _ _ _ _ _ _ _ _ h

/-- A database stub: the DB branch is never taken by the fixtures below
(their ProblemID is 0). -/
def dbStub : Int → Except String (List TestCase) := fun _ => .error "unavailable"

/-- Environment fixture: goroutine 0 exits normally printing "5",
goroutine 1 hits the deadline. -/
def envTwo : Nat → ExecOutcome := fun i =>
  if i = 0 then .ran false .noErr "5" "" 3 else .ran true .noErr "" "" 9

/-- Environment fixture: every goroutine exits normally with empty output. -/
def envOk : Nat → ExecOutcome := fun _ => .ran false .noErr "" "" 1

/-- Request fixture with all three resource-limit fields omitted (0). -/
def reqZeroLimits : ExecutionRequest :=
  { ProblemID := 0, CustomInput := "", TestCases := [⟨1, "in", "out"⟩],
    Code := "c", Language := "python", TimeoutMs := 0, MemoryMb := 0, CpuShares := 0 }

/-- Request fixture: two manual test cases without expected outputs. -/
def reqTwo : ExecutionRequest :=
  { ProblemID := 0, CustomInput := "", TestCases := [⟨1, "a", ""⟩, ⟨2, "b", ""⟩],
    Code := "c", Language := "python", TimeoutMs := 5, MemoryMb := 1, CpuShares := 1 }

/-- Request fixture: two manual test cases with expected outputs 4 and 7. -/
def reqTwoExp : ExecutionRequest :=
  { ProblemID := 0, CustomInput := "", TestCases := [⟨1, "a", "4"⟩, ⟨2, "b", "7"⟩],
    Code := "c", Language := "python", TimeoutMs := 5, MemoryMb := 1, CpuShares := 1 }

/-- Request fixture: one manual test case expecting 4 while the sandbox
prints 5 (judged Wrong Answer under envTwo). -/
def reqOneWrong : ExecutionRequest :=
  { ProblemID := 0, CustomInput := "", TestCases := [⟨3, "q", "4"⟩],
    Code := "c", Language := "python", TimeoutMs := 5, MemoryMb := 1, CpuShares := 1 }

/-- Request fixture: one manual test case expecting output 4. -/
def reqOneTest : ExecutionRequest :=
  { ProblemID := 0, CustomInput := "", TestCases := [⟨7, "2 2", "4"⟩],
    Code := "c", Language := "python", TimeoutMs := 5, MemoryMb := 1, CpuShares := 1 }

/-- C10: for every test-case execution, regardless of verdict, the
result's MemoryKb equals the configured memory limit in kilobytes
(memoryMb * 1024); it never reports measured peak usage (there is no other
source for the field). -/
theorem C10_memoryKb_always_limit (code language input : String) (t m c id : Int)
    (exp : String) (outcome : ExecOutcome) :
    (executeSingleTestCase code language input t m c id exp outcome).MemoryKb = m * 1024 :=
  memoryKb_eq code language input t m c id exp outcome

/-- C8: for every per-test result produced by any execution path,
isCorrect is true only when the verdict is Accepted or Executed. -/
theorem C8_isCorrect_only_accepted_or_executed (code language input : String)
    (t m c id : Int) (exp : String) (outcome : ExecOutcome)
    (h : (executeSingleTestCase code language input t m c id exp outcome).IsCorrect = true) :
    (executeSingleTestCase code language input t m c id exp outcome).Status = "Accepted" ∨
    (executeSingleTestCase code language input t m c id exp outcome).Status = "Executed" := by
  cases outcome with
  | tempDirFail e => simp [executeSingleTestCase] at h
  | writeCodeFail e => simp [executeSingleTestCase] at h
  | writeInputFail e => simp [executeSingleTestCase] at h
  | ran timedOut cmdErr stdout stderr el =>
    simp only [executeSingleTestCase] at h ⊢
    by_cases ht : timedOut
    · simp [ht] at h
    · simp only [ht, if_false, Bool.false_eq_true] at h ⊢
      cases cmdErr with
      | exitError => simp at h
      | otherErr msg => simp at h
      | noErr =>
        by_cases he : exp = ""
        · simp [he]
        · by_cases heq : trimSpace stdout = trimSpace exp
          · simp [he, heq]
          · simp [he, heq] at h

/-- C8 witness: an accepted run has isCorrect true, and the theorem places
its status in the allowed pair. -/
theorem C8_witness :
    (executeSingleTestCase "c" "python" "" 5 1 1 1 "hi"
        (ExecOutcome.ran false .noErr "hi" "" 3)).IsCorrect = true ∧
    ((executeSingleTestCase "c" "python" "" 5 1 1 1 "hi"
        (ExecOutcome.ran false .noErr "hi" "" 3)).Status = "Accepted" ∨
     (executeSingleTestCase "c" "python" "" 5 1 1 1 "hi"
        (ExecOutcome.ran false .noErr "hi" "" 3)).Status = "Executed") :=
  ⟨rfl, C8_isCorrect_only_accepted_or_executed "c" "python" "" 5 1 1 1 "hi"
    (ExecOutcome.ran false .noErr "hi" "" 3) rfl⟩

/-- C5: a test case with empty expectedOutput never yields Wrong Answer;
a normal exit yields Executed with isCorrect true, anything else yields a
failure verdict. -/
theorem C5_empty_expected_never_wrong_answer (code language input : String)
    (t m c id : Int) (outcome : ExecOutcome) :
    (executeSingleTestCase code language input t m c id "" outcome).Status ≠ "Wrong Answer" ∧
    ((∃ stdout stderr el, outcome = .ran false .noErr stdout stderr el) →
      (executeSingleTestCase code language input t m c id "" outcome).Status = "Executed" ∧
      (executeSingleTestCase code language input t m c id "" outcome).IsCorrect = true) ∧
    ((∀ stdout stderr el, outcome ≠ .ran false .noErr stdout stderr el) →
      (executeSingleTestCase code language input t m c id "" outcome).Status ∈
        ["Time Limit Exceeded", "Memory Limit Exceeded", "Runtime Error",
         "Compilation Error", "Internal Error"]) := by
  refine ⟨?_, ?_, ?_⟩
  · cases outcome with
    | tempDirFail e => simp [executeSingleTestCase]
    | writeCodeFail e => simp [executeSingleTestCase]
    | writeInputFail e => simp [executeSingleTestCase]
    | ran timedOut cmdErr stdout stderr el =>
      simp only [executeSingleTestCase]
      by_cases ht : timedOut
      · simp [ht]
      · simp only [ht, if_false, Bool.false_eq_true]
        cases cmdErr with
        | exitError =>
          by_cases hoom : containsSub stderr "OOMKilled" = true ∨ containsSub stdout "OOMKilled" = true
          · simp [hoom]
          · by_cases hlang : language = "java" ∨ language = "cpp" ∨ language = "go"
            · by_cases hmark : containsSub stderr "error:" = true ∨
                  containsSub stderr "compilation failed" = true ∨
                  containsSub stderr "undefined reference" = true <;>
                simp [hoom, hlang, hmark]
            · simp [hoom, hlang]
        | otherErr msg => simp
        | noErr => simp
  · rintro ⟨stdout, stderr, el, rfl⟩
    constructor <;> rfl
  · intro hno
    cases outcome with
    | tempDirFail e => simp [executeSingleTestCase]
    | writeCodeFail e => simp [executeSingleTestCase]
    | writeInputFail e => simp [executeSingleTestCase]
    | ran timedOut cmdErr stdout stderr el =>
      simp only [executeSingleTestCase]
      by_cases ht : timedOut
      · simp [ht]
      · cases cmdErr with
        | exitError =>
          simp only [ht, if_false, Bool.false_eq_true]
          by_cases hoom : containsSub stderr "OOMKilled" = true ∨ containsSub stdout "OOMKilled" = true
          · simp [hoom]
          · by_cases hlang : language = "java" ∨ language = "cpp" ∨ language = "go"
            · by_cases hmark : containsSub stderr "error:" = true ∨
                  containsSub stderr "compilation failed" = true ∨
                  containsSub stderr "undefined reference" = true <;>
                simp [hoom, hlang, hmark]
            · simp [hoom, hlang]
        | otherErr msg => simp [ht]
        | noErr =>
          have ht2 : timedOut = false := by simpa using ht
          subst ht2
          exact absurd rfl (hno stdout stderr el)

/-- C5 witness: at a concrete timed-out outcome the status is a failure
verdict, and at a concrete normal exit the status is Executed. -/
theorem C5_witness :
    (executeSingleTestCase "c" "python" "" 5 1 1 1 ""
        (ExecOutcome.ran true .noErr "x" "" 9)).Status ∈
      ["Time Limit Exceeded", "Memory Limit Exceeded", "Runtime Error",
       "Compilation Error", "Internal Error"] ∧
    (executeSingleTestCase "c" "python" "" 5 1 1 1 ""
        (ExecOutcome.ran false .noErr "x" "" 9)).Status = "Executed" :=
  ⟨(C5_empty_expected_never_wrong_answer "c" "python" "" 5 1 1 1
      (ExecOutcome.ran true .noErr "x" "" 9)).2.2 (by intro stdout stderr el h; cases h),
   ((C5_empty_expected_never_wrong_answer "c" "python" "" 5 1 1 1
      (ExecOutcome.ran false .noErr "x" "" 9)).2.1 ⟨"x", "", 9, rfl⟩).1⟩

/-- C7: a request supplying none of the three test-case sources fails fast
with a configuration-error result holding zero per-test results; the result
does not depend on the sandbox environment or the channel order, so no
execution is observable. -/
theorem C7_no_source_fails_fast (neonDB : Int → Except String (List TestCase))
    (env : Nat → ExecOutcome) (arrival : List Nat) (req : ExecutionRequest)
    (h1 : req.ProblemID = 0) (h2 : req.CustomInput = "") (h3 : req.TestCases = []) :
    (ExecuteCode neonDB env arrival req).OverallStatus = "Error" ∧
    (ExecuteCode neonDB env arrival req).TestResults = [] ∧
    (ExecuteCode neonDB env arrival req).TotalTests = 0 ∧
    ∀ env2 arrival2, ExecuteCode neonDB env2 arrival2 req = ExecuteCode neonDB env arrival req := by
  unfold ExecuteCode
  simp [h1, h2, h3]

/-- C7 witness: the empty request at a concrete environment. -/
theorem C7_witness :
    (ExecuteCode dbStub envOk [0]
        { ProblemID := 0, CustomInput := "", TestCases := [], Code := "c",
          Language := "python", TimeoutMs := 5, MemoryMb := 1, CpuShares := 1 }).OverallStatus
      = "Error" ∧
    (ExecuteCode dbStub envOk [0]
        { ProblemID := 0, CustomInput := "", TestCases := [], Code := "c",
          Language := "python", TimeoutMs := 5, MemoryMb := 1, CpuShares := 1 }).TestResults
      = [] :=
  ⟨(C7_no_source_fails_fast dbStub envOk [0] _ rfl rfl rfl).1,
   (C7_no_source_fails_fast dbStub envOk [0] _ rfl rfl rfl).2.1⟩

/-- C9: an unsupported language identifier resolves, without raising, to
the fallback image and to a run command that echoes the
unsupported-language message; execution of such a command still produces a
result whose status is one of the normal verdicts. -/
theorem C9_unknown_language_surfaced (lang : String)
    (h : lang ∉ ["python", "java", "cpp", "go", "javascript"]) :
    (∀ f i, getRunCommand lang f i = ["echo", "Qo\x27llab-quvvatlanmaydigan til."]) ∧
    getDockerImage lang = "alpine/git" ∧
    getCodeFileName lang = "main.txt" ∧
    ∀ code input t m c id exp outcome,
      (executeSingleTestCase code lang input t m c id exp outcome).Status ∈ verdictList := by
  have h1 : lang ≠ "python" := by intro hc; simp [hc] at h
  have h2 : lang ≠ "java" := by intro hc; simp [hc] at h
  have h3 : lang ≠ "cpp" := by intro hc; simp [hc] at h
  have h4 : lang ≠ "go" := by intro hc; simp [hc] at h
  have h5 : lang ≠ "javascript" := by intro hc; simp [hc] at h
  refine ⟨?_, ?_, ?_, ?_⟩
  · intro f i; simp [getRunCommand, h1, h2, h3, h4, h5]
  · simp [getDockerImage, h1, h2, h3, h4, h5]
  · simp [getCodeFileName, h1, h2, h3, h4, h5]
  · intro code input t m c id exp outcome
    exact status_mem_verdictList code lang input t m c id exp outcome

/-- C9 witness: the unknown language "ruby". -/
theorem C9_witness :
    getRunCommand "ruby" "main.txt" "" = ["echo", "Qo\x27llab-quvvatlanmaydigan til."] ∧
    getDockerImage "ruby" = "alpine/git" :=
  ⟨(C9_unknown_language_surfaced "ruby" (by decide)).1 "main.txt" "",
   (C9_unknown_language_surfaced "ruby" (by decide)).2.1⟩

/-- Modelled from the wording of claim C3: the claimed first-match-wins
verdict order for one execution outcome — timeout, then memory marker in
stderr, then (build languages) compiler marker in stderr, then runtime
error.  Used only to compare the claim against the code. -/
def claimC3Verdict (language : String) (timedOut : Bool) (stdout stderr : String) : String :=
  if timedOut then "Time Limit Exceeded"
  else if containsSub stderr "OOMKilled" then "Memory Limit Exceeded"
  else if (language = "java" ∨ language = "cpp" ∨ language = "go") ∧
          (containsSub stderr "error:" ∨ containsSub stderr "compilation failed" ∨
           containsSub stderr "undefined reference") then "Compilation Error"
  else "Runtime Error"

/-- The amended claim C3: as claim C3 but the memory-exhaustion marker is
recognized in stderr or stdout (the code checks both streams). -/
def amendedC3Verdict (language : String) (timedOut : Bool) (stdout stderr : String) : String :=
  if timedOut then "Time Limit Exceeded"
  else if containsSub stderr "OOMKilled" ∨ containsSub stdout "OOMKilled" then
    "Memory Limit Exceeded"
  else if (language = "java" ∨ language = "cpp" ∨ language = "go") ∧
          (containsSub stderr "error:" ∨ containsSub stderr "compilation failed" ∨
           containsSub stderr "undefined reference") then "Compilation Error"
  else "Runtime Error"

/-- C3 counterexample: when "OOMKilled" appears only on stdout of an
abnormal exit, the code classifies Memory Limit Exceeded, while the claim's
decision order (marker in stderr only) classifies Runtime Error. -/
theorem C3_counterexample :
    (executeSingleTestCase "c" "python" "" 5000 128 512 1 ""
        (ExecOutcome.ran false .exitError "OOMKilled" "" 10)).Status = "Memory Limit Exceeded" ∧
    claimC3Verdict "python" false "OOMKilled" "" = "Runtime Error" ∧
    ("Memory Limit Exceeded" : String) ≠ "Runtime Error" :=
  ⟨rfl, rfl, by decide⟩

/-- C3 amended: for every abnormal-exit execution outcome the code's
verdict equals the claimed first-match-wins order with the memory marker
recognized in stderr or stdout. -/
theorem C3_amended_verdict_order (code language input : String) (t m c id : Int)
    (exp : String) (timedOut : Bool) (stdout stderr : String) (el : Int) :
    (executeSingleTestCase code language input t m c id exp
        (ExecOutcome.ran timedOut .exitError stdout stderr el)).Status =
      amendedC3Verdict language timedOut stdout stderr := by
  by_cases ht : timedOut
  · simp [executeSingleTestCase, amendedC3Verdict, ht]
  · simp only [executeSingleTestCase, amendedC3Verdict, ht, if_false, Bool.false_eq_true]
    by_cases hoom : containsSub stderr "OOMKilled" = true ∨ containsSub stdout "OOMKilled" = true
    · simp [hoom]
    · by_cases hlang : language = "java" ∨ language = "cpp" ∨ language = "go"
      · by_cases hmark : containsSub stderr "error:" = true ∨
            containsSub stderr "compilation failed" = true ∨
            containsSub stderr "undefined reference" = true <;>
          simp [hoom, hlang, hmark]
      · simp [hoom, hlang]

/-- C4 counterexample: the core execution engine does not apply the
defaults.  Executing a request with all limit fields 0 reaches the sandbox
with memoryMb = 0 (the result echoes a 0 Kb limit), while the same request
after the handler's default application reaches it with 128 Mb; the two
core results differ. -/
theorem C4_counterexample :
    (ExecuteCode dbStub envOk [0] reqZeroLimits).TestResults.map (fun r => r.MemoryKb) = [0] ∧
    (ExecuteCode dbStub envOk [0] (applyHandlerDefaults reqZeroLimits)).TestResults.map
      (fun r => r.MemoryKb) = [128 * 1024] ∧
    ExecuteCode dbStub envOk [0] reqZeroLimits ≠
      ExecuteCode dbStub envOk [0] (applyHandlerDefaults reqZeroLimits) :=
  ⟨rfl, rfl, by decide⟩

/-- C4 amended: the transport handler (not the core) applies the defaults
timeoutMs=5000, memoryMb=128, cpuShares=512 to omitted (zero) fields before
invoking the core, leaving supplied fields unchanged; the core passes the
request's limits through to each execution unchanged. -/
theorem C4_amended_defaults_in_handler (req : ExecutionRequest) :
    (req.TimeoutMs = 0 → (applyHandlerDefaults req).TimeoutMs = 5000) ∧
    (req.MemoryMb = 0 → (applyHandlerDefaults req).MemoryMb = 128) ∧
    (req.CpuShares = 0 → (applyHandlerDefaults req).CpuShares = 512) ∧
    (req.TimeoutMs ≠ 0 → (applyHandlerDefaults req).TimeoutMs = req.TimeoutMs) ∧
    (req.MemoryMb ≠ 0 → (applyHandlerDefaults req).MemoryMb = req.MemoryMb) ∧
    (req.CpuShares ≠ 0 → (applyHandlerDefaults req).CpuShares = req.CpuShares) ∧
    (∀ env tc i, (runOne env req tc i).MemoryKb = req.MemoryMb * 1024) := by
  refine ⟨?_, ?_, ?_, ?_, ?_, ?_, ?_⟩
  · intro h; simp [applyHandlerDefaults, h]
  · intro h; simp [applyHandlerDefaults, h]
  · intro h; simp [applyHandlerDefaults, h]
  · intro h; simp [applyHandlerDefaults, h]
  · intro h; simp [applyHandlerDefaults, h]
  · intro h; simp [applyHandlerDefaults, h]
  · intro env tc i
    unfold runOne
    exact memoryKb_eq _ _ _ _ _ _ _ _ _

/-- C4 witness: the all-zero request gets all three defaults from the
handler, and the core echoes the raw zero memory limit. -/
theorem C4_witness :
    (applyHandlerDefaults reqZeroLimits).TimeoutMs = 5000 ∧
    (applyHandlerDefaults reqZeroLimits).MemoryMb = 128 ∧
    (applyHandlerDefaults reqZeroLimits).CpuShares = 512 ∧
    (runOne envOk reqZeroLimits ⟨1, "in", "out"⟩ 0).MemoryKb = reqZeroLimits.MemoryMb * 1024 :=
  ⟨(C4_amended_defaults_in_handler reqZeroLimits).1 rfl,
   (C4_amended_defaults_in_handler reqZeroLimits).2.1 rfl,
   (C4_amended_defaults_in_handler reqZeroLimits).2.2.1 rfl,
   (C4_amended_defaults_in_handler reqZeroLimits).2.2.2.2.2.2 envOk ⟨1, "in", "out"⟩ 0⟩

/-- C6 counterexample: the classification is not invariant under adding
trailing whitespace to an empty expectedOutput: with expectedOutput "" a
normal exit is classified Executed (treated correct), with expectedOutput
"\n" the same run is classified Wrong Answer. -/
theorem C6_counterexample :
    AllWs "\n" ∧
    (executeSingleTestCase "c" "python" "" 5 1 1 1 ""
        (ExecOutcome.ran false .noErr "x" "" 1)).Status = "Executed" ∧
    (executeSingleTestCase "c" "python" "" 5 1 1 1 ""
        (ExecOutcome.ran false .noErr "x" "" 1)).IsCorrect = true ∧
    (executeSingleTestCase "c" "python" "" 5 1 1 1 ("" ++ "\n")
        (ExecOutcome.ran false .noErr "x" "" 1)).Status = "Wrong Answer" ∧
    (executeSingleTestCase "c" "python" "" 5 1 1 1 ("" ++ "\n")
        (ExecOutcome.ran false .noErr "x" "" 1)).IsCorrect = false :=
  ⟨by decide, rfl, rfl, rfl, rfl⟩

/-- C6 amended: classification is invariant under adding or removing
leading/trailing whitespace on the actual output, and on the expected
output provided the expected output is non-empty (padding an empty
expected output moves the run from the Executed path to the comparison
path); it is not invariant under internal whitespace changes. -/
theorem C6_amended_trimming_law :
    (∀ (code language input : String) (t m c id el : Int) (se a e w1 w2 w3 w4 : String),
      AllWs w1 → AllWs w2 → AllWs w3 → AllWs w4 → e ≠ "" →
      (executeSingleTestCase code language input t m c id (w3 ++ e ++ w4)
          (ExecOutcome.ran false .noErr (w1 ++ a ++ w2) se el)).Status =
        (executeSingleTestCase code language input t m c id e
          (ExecOutcome.ran false .noErr a se el)).Status ∧
      (executeSingleTestCase code language input t m c id (w3 ++ e ++ w4)
          (ExecOutcome.ran false .noErr (w1 ++ a ++ w2) se el)).IsCorrect =
        (executeSingleTestCase code language input t m c id e
          (ExecOutcome.ran false .noErr a se el)).IsCorrect) ∧
    (∀ (code language input : String) (t m c id el : Int) (se a e w1 w2 : String),
      AllWs w1 → AllWs w2 →
      (executeSingleTestCase code language input t m c id e
          (ExecOutcome.ran false .noErr (w1 ++ a ++ w2) se el)).Status =
        (executeSingleTestCase code language input t m c id e
          (ExecOutcome.ran false .noErr a se el)).Status) ∧
    (executeSingleTestCase "c" "python" "" 5 1 1 1 "a b"
        (ExecOutcome.ran false .noErr "a b" "" 1)).Status = "Accepted" ∧
    (executeSingleTestCase "c" "python" "" 5 1 1 1 "a b"
        (ExecOutcome.ran false .noErr "a  b" "" 1)).Status = "Wrong Answer" := by
  refine ⟨?_, ?_, rfl, rfl⟩
  · intro code language input t m c id el se a e w1 w2 w3 w4 h1 h2 h3 h4 he
    have hne : w3 ++ e ++ w4 ≠ "" := ne_empty_of_mid_ne_empty he
    have ta : trimSpace (w1 ++ a ++ w2) = trimSpace a := trimSpace_pad w1 a w2 h1 h2
    have te : trimSpace (w3 ++ e ++ w4) = trimSpace e := trimSpace_pad w3 e w4 h3 h4
    constructor <;>
      (simp only [executeSingleTestCase, ta, te]
       by_cases heq : trimSpace a = trimSpace e <;> simp [hne, he, heq])
  · intro code language input t m c id el se a e w1 w2 h1 h2
    have ta : trimSpace (w1 ++ a ++ w2) = trimSpace a := trimSpace_pad w1 a w2 h1 h2
    by_cases he : e = ""
    · simp [executeSingleTestCase, he]
    · simp only [executeSingleTestCase, ta]

/-- C6 witness: padding " 4" / "4\n" against expected "4" classifies the
same as "4" against "4". -/
theorem C6_witness :
    AllWs " " ∧ AllWs "" ∧ AllWs "\n" ∧ ("4" : String) ≠ "" ∧
    (executeSingleTestCase "c" "python" "" 5 1 1 1 ("" ++ "4" ++ "\n")
        (ExecOutcome.ran false .noErr (" " ++ "4" ++ "") "x" 2)).Status =
      (executeSingleTestCase "c" "python" "" 5 1 1 1 "4"
        (ExecOutcome.ran false .noErr "4" "x" 2)).Status :=
  ⟨by decide, by decide, by decide, by decide,
   (C6_amended_trimming_law.1 "c" "python" "" 5 1 1 1 2 "x" "4" "4" " " "" "" "\n"
     (by decide) (by decide) (by decide) (by decide) (by decide)).1⟩

/-- C1 counterexample: with two resolved test cases and channel delivery
order [1, 0] (a legitimate completion order), the result entries appear in
completion order, not in test-case input order. -/
theorem C1_counterexample :
    List.Perm [1, 0] (List.range 2) ∧
    (ExecuteCode dbStub envTwo [1, 0] reqTwo).TestResults.map (fun r => r.InputText)
      = ["b", "a"] ∧
    reqTwo.TestCases.map (fun tc => tc.InputText) = ["a", "b"] ∧
    (["b", "a"] : List String) ≠ ["a", "b"] :=
  ⟨by decide, rfl, rfl, by decide⟩

/-- C1 amended: for every request whose resolved test-case set is
non-empty of size N and every channel delivery order (any permutation of
the goroutine indices), ExecuteCode returns exactly N per-test results —
one per input test case, no silent drops — forming a permutation of the
per-test results in test-case input order; the sequence order itself is
the delivery order, not necessarily the input order. -/
theorem C1_amended_count_and_perm (neonDB : Int → Except String (List TestCase))
    (env : Nat → ExecOutcome) (arrival : List Nat) (req : ExecutionRequest)
    (tcs : List TestCase) (hres : resolveTestCases neonDB req = .ok tcs)
    (hne : tcs ≠ []) (hperm : arrival.Perm (List.range tcs.length)) :
    (ExecuteCode neonDB env arrival req).TestResults.length = tcs.length ∧
    (ExecuteCode neonDB env arrival req).TestResults.Perm (inOrderResults env req tcs) := by
  rw [executeCode_eq_runTests neonDB env arrival req tcs hres,
      runTests_nonempty env arrival req tcs hne]
  constructor
  · simp only [collectedResults, List.length_map]
    simpa using hperm.length_eq
  · simpa [collectedResults, inOrderResults] using hperm.map (dispatchResult env req tcs)

/-- C1 witness: a singleton request with delivery order [0]. -/
theorem C1_witness :
    (ExecuteCode dbStub envOk [0] reqOneTest).TestResults.length = reqOneTest.TestCases.length ∧
    (ExecuteCode dbStub envOk [0] reqOneTest).TestResults.Perm
      (inOrderResults envOk reqOneTest reqOneTest.TestCases) :=
  C1_amended_count_and_perm dbStub envOk [0] reqOneTest reqOneTest.TestCases
    rfl (by decide) (by decide)

/-- C2 counterexample: with test case 1 judged Wrong Answer, test case 2
judged Time Limit Exceeded, and channel delivery order [1, 0], the overall
status is the verdict of the first incorrect result in delivery order
(Time Limit Exceeded), not the verdict of the first incorrect result in
test-case input order (Wrong Answer). -/
theorem C2_counterexample :
    List.Perm [1, 0] (List.range 2) ∧
    (ExecuteCode dbStub envTwo [1, 0] reqTwoExp).OverallStatus = "Time Limit Exceeded" ∧
    ((inOrderResults envTwo reqTwoExp reqTwoExp.TestCases).find?
        (fun r => !r.IsCorrect)).map (fun r => r.Status) = some "Wrong Answer" ∧
    ("Time Limit Exceeded" : String) ≠ "Wrong Answer" :=
  ⟨by decide, rfl, rfl, by decide⟩

/-- C2 amended: for every request with a non-empty resolved test-case set,
the overall status is Accepted iff every per-test result has isCorrect
true; otherwise it equals the verdict of the first incorrect result in the
order the results were collected (goroutine completion order), not
necessarily test-case input order. -/
theorem C2_amended_first_failure_in_collection_order
    (neonDB : Int → Except String (List TestCase)) (env : Nat → ExecOutcome)
    (arrival : List Nat) (req : ExecutionRequest) (tcs : List TestCase)
    (hres : resolveTestCases neonDB req = .ok tcs) (hne : tcs ≠ []) :
    ((ExecuteCode neonDB env arrival req).OverallStatus = "Accepted" ↔
      ∀ r ∈ (ExecuteCode neonDB env arrival req).TestResults, r.IsCorrect = true) ∧
    ((ExecuteCode neonDB env arrival req).OverallStatus ≠ "Accepted" →
      ∃ r, (ExecuteCode neonDB env arrival req).TestResults.find?
              (fun x => !x.IsCorrect) = some r ∧
           (ExecuteCode neonDB env arrival req).OverallStatus = r.Status) := by
  rw [executeCode_eq_runTests neonDB env arrival req tcs hres,
      runTests_nonempty env arrival req tcs hne]
  by_cases hall : (collectedResults env arrival req tcs).all (fun r => r.IsCorrect) = true
  · constructor
    · rw [if_pos hall]
      constructor
      · intro _ r hr
        exact List.all_eq_true.mp hall r hr
      · intro _
        rfl
    · rw [if_pos hall]
      intro hc
      exact absurd rfl hc
  · have hex : ∃ r ∈ collectedResults env arrival req tcs, (!r.IsCorrect) = true := by
      have h2 := List.all_eq_true.not.mp hall
      push_neg at h2
      rcases h2 with ⟨r, hmem, hcor⟩
      refine ⟨r, hmem, ?_⟩
      cases hb : r.IsCorrect with
      | false => rfl
      | true => exact absurd hb hcor
    have hsome : ((collectedResults env arrival req tcs).find?
        (fun x => !x.IsCorrect)).isSome := List.find?_isSome.mpr hex
    rcases Option.isSome_iff_exists.mp hsome with ⟨r, hfind⟩
    have hrmem : r ∈ collectedResults env arrival req tcs := List.mem_of_find?_eq_some hfind
    have hrbad := List.find?_some hfind
    have hrfalse : r.IsCorrect = false := by simpa using hrbad
    have hrstat : r.Status ≠ "Accepted" := by
      intro hs
      rcases List.mem_map.mp hrmem with ⟨i, _, hri⟩
      rw [← hri] at hs hrfalse
      rw [dispatch_status_accepted_isCorrect env req tcs i hs] at hrfalse
      cases hrfalse
    constructor
    · rw [if_neg hall, hfind]
      constructor
      · intro hc
        exact absurd hc hrstat
      · intro hc
        have := hc r hrmem
        rw [this] at hrfalse
        cases hrfalse
    · intro _
      rw [if_neg hall, hfind]
      exact ⟨r, rfl, rfl⟩

/-- C2 witness: a singleton request whose only test fails, overall status
equals that first (and only) incorrect status. -/
theorem C2_witness :
    ((ExecuteCode dbStub envTwo [0] reqOneWrong).OverallStatus = "Accepted" ↔
      ∀ r ∈ (ExecuteCode dbStub envTwo [0] reqOneWrong).TestResults, r.IsCorrect = true) ∧
    ((ExecuteCode dbStub envTwo [0] reqOneWrong).OverallStatus ≠ "Accepted" →
      ∃ r, (ExecuteCode dbStub envTwo [0] reqOneWrong).TestResults.find?
              (fun x => !x.IsCorrect) = some r ∧
           (ExecuteCode dbStub envTwo [0] reqOneWrong).OverallStatus = r.Status) :=
  C2_amended_first_failure_in_collection_order dbStub envTwo [0] reqOneWrong
    reqOneWrong.TestCases rfl (by decide)

end LeetcodeDocker
